import Mathlib

/-!
# VisionTherapy: session lifecycle and scoring of `scripts.js`

A shallow embedding of the script's controller (`startSession`, `stopSession`,
`clearRunning`, `updateHUD`, `finalizeSession`, the reset and visibility
listeners), of the eight exercises of the `Exercises` object with their click
handlers and timer callbacks, and of the part of the browser they talk to:

* the timer table behind `setInterval` / `setTimeout` / `clearInterval` /
  `clearTimeout` (handles are fresh numbers; a live timer may fire at any time,
  so every interleaving of callbacks is a run of the model);
* the DOM nodes the script creates (a store of nodes, and the list of children
  of `playArea`; a detached node keeps its properties);
* `Math.random()`, an oracle handing out numbers of `[0, 1)` one after another;
* `alert`, a log of the messages shown.

`score` and the durations are JavaScript numbers that only ever hold integers
here, so they are `Int` (the range in which a JavaScript number is exact is not
left); `parseInt(durationEl.value)` is taken to be an integer.
A style property reads back the string or number that was written to it.
Sound (`playBeep`), Web Animations and the trigonometric positions of the
moving dot, the star and the spiral are presentation and are left out; the
bouncing ball's arithmetic is kept, over the rationals.
-/

namespace VisionTherapy

/-! ## Data model -/

/-- A value returned by `Math.random()`: the fraction `num / den`, a number of
`[0, 1)`. -/
structure Draw where
  num : Nat
  den : Nat
  lt : num < den

/-- The expression `Math.floor(Math.random() * n)` for a draw `r`: the floor of
`num * n / den`. -/
def Draw.index (r : Draw) (n : Nat) : Nat := r.num * n / r.den

/-- The eight methods of the `Exercises` object literal. -/
inductive Exercise
  | movingDot | bouncingBall | peripheralFlash | letterZoom
  | followStar | shapeMatch | colorCatch | spiralFocus
  deriving DecidableEq, Repr

/-- What a property read `Exercises[exId]` can yield besides `undefined`: one of
the literal's own methods, or a member the literal inherits from
`Object.prototype`. -/
inductive Member
  | own (e : Exercise)
  | inherited (name : String)
  deriving DecidableEq, Repr

/-- The click listener attached to a node, with the variables its closure
captured (`opts.duration`, the round's `current`, the session's `target`). -/
inductive Handler
  | none
  | movingDot (duration : Int)
  | bouncingBall
  | peripheralFlash
  | letterZoom
  | followStar
  | shapeMatch (duration : Int) (current : String)
  | colorCatch (duration : Int) (target : String)
  | spiralFocus (duration : Int)
  deriving DecidableEq, Repr

/-- Where a node comes from: the template it is cloned from or the role of the
`div` the script creates. -/
inductive NodeKind
  | dot | ball | edge | star | bigLetter | shapeTarget | shapeOption
  | title | square | spiralDot | focusDot
  deriving DecidableEq, Repr

/-- A DOM node, reduced to the properties the script reads back. `left` and
`top` are `style.left` / `style.top` in pixels, `none` while unset. -/
structure Node where
  kind : NodeKind
  textContent : String := ""
  color : String := ""
  background : String := ""
  left : Option ℚ := none
  top : Option ℚ := none
  onClick : Handler := Handler.none

/-- The callback of a timer together with the mutable variables of its
closure. -/
inductive Callback
  | countdown (t : Int)
  | motion
  | bounce (ball : Nat) (vx vy : ℚ)
  | letterCycle (el : Nat) (idx : Nat)
  | flashSpawn
  | colorSpawn (duration : Int) (target : String)
  | removeNode (el : Nat)

/-- An entry of the browser's table of active timers. -/
structure Timer where
  handle : Nat
  repeating : Bool
  cb : Callback

/-- The script's globals, the controls it reads, the displays it writes and the
browser state it acts on. -/
structure State where
  score : Int
  timer : Option Nat
  runningIntervals : List Nat
  runningTimeouts : List Nat
  sessions : Nat
  durationValue : Int
  exerciseValue : String
  speedValue : ℚ
  speedOptionText : String
  clientWidth : ℚ
  clientHeight : ℚ
  scoreText : String
  timeLeftText : String
  speedLabelText : String
  sessionCountText : String
  alerts : List String
  node : Nat → Node
  nextNode : Nat
  playArea : List Nat
  timers : List Timer
  nextHandle : Nat
  center : Nat
  edgeElems : List Nat
  rand : Nat → Draw
  randPos : Nat

/-- What can happen to the page: the three buttons, the page being hidden, the
user changing a control, a live timer firing, a click on a node of the play
area. -/
inductive Event
  | startClick
  | stopClick
  | resetClick
  | hidden
  | setDuration (d : Int)
  | setSpeed (v : ℚ) (label : String)
  | selectExercise (exId : String)
  | timerFires (h : Nat)
  | click (el : Nat)

/-! ## Browser primitives -/

/-- The call `clearInterval(h)` / `clearTimeout(h)`; `null` clears nothing. -/
def clearInterval (h : Option Nat) (s : State) : State :=
  match h with
  | none => s
  | some i => { s with timers := s.timers.filter (fun tm => tm.handle != i) }

/-- The calls `setInterval(cb, _)` (repeating) and `setTimeout(cb, _)`: the new
handle and the state with the timer registered. -/
def setTimer (repeating : Bool) (cb : Callback) (s : State) : Nat × State :=
  (s.nextHandle,
   { s with timers := s.timers ++ [{ handle := s.nextHandle, repeating := repeating, cb := cb }],
            nextHandle := s.nextHandle + 1 })

/-- Create a node and `playArea.appendChild` it. -/
def appendNew (n : Node) (s : State) : Nat × State :=
  (s.nextNode,
   { s with node := Function.update s.node s.nextNode n,
            nextNode := s.nextNode + 1,
            playArea := s.playArea ++ [s.nextNode] })

/-- The call `el.remove()`. -/
def removeNode (el : Nat) (s : State) : State :=
  { s with playArea := s.playArea.filter (fun x => x != el) }

/-- The call `Math.random()`. -/
def random (s : State) : Draw × State :=
  (s.rand s.randPos, { s with randPos := s.randPos + 1 })

/-- The call `alert(msg)`. -/
def alert (msg : String) (s : State) : State :=
  { s with alerts := s.alerts ++ [msg] }

/-! ## Controller helpers -/

/-- The function `clearRunning`. -/
def clearRunning (s : State) : State :=
  let s := s.runningIntervals.foldl (fun acc i => clearInterval (some i) acc) s
  let s := { s with runningIntervals := [] }
  let s := s.runningTimeouts.foldl (fun acc t => clearInterval (some t) acc) s
  let s := { s with runningTimeouts := [] }
  { s with playArea := [] }

/-- The expression `str.padStart(2, '0')`. -/
def padStart2 (str : String) : String :=
  if str.length < 2 then String.mk (List.replicate (2 - str.length) '0') ++ str else str

/-- The function `updateHUD`. -/
def updateHUD (timeLeft : Int) (s : State) : State :=
  { s with scoreText := toString s.score,
           timeLeftText := "00:" ++ padStart2 (toString timeLeft),
           speedLabelText := s.speedOptionText }

/-- The function `speedMul`: `parseFloat(speedEl.value) || 1`. -/
def speedMul (s : State) : ℚ := if s.speedValue = 0 then 1 else s.speedValue

/-- The expression `Math.floor(a / b)` for integers `a` and `b` with `0 < b`. -/
def floorDiv (a b : Int) : Int := a / b

/-- The expression `Math.ceil(a / b)` for integers `a` and `b` with `0 < b`. -/
def ceilDiv (a b : Int) : Int := -((-a) / b)

/-- The star rating `finalizeSession` computes into its local `s`:
`Math.min(3, Math.ceil(score / Math.max(1, Math.floor(duration / 10))))`. -/
def rating (score duration : Int) : Int :=
  min 3 (ceilDiv score (max 1 (floorDiv duration 10)))

/-- The function `finalizeSession`: the rating is computed into a local that
nothing reads, then the alert is shown. -/
def finalizeSession (s : State) : State :=
  let _s := rating s.score s.durationValue
  alert ("Session complete! Score: " ++ toString s.score) s


/-! ## The exercises -/

/-- The value of a draw as a rational number. -/
def Draw.val (r : Draw) : ℚ := (r.num : ℚ) / (r.den : ℚ)

/-- Register a repeating timer and push its handle on `runningIntervals`. -/
def pushInterval (cb : Callback) (s : State) : State :=
  let (iv, s) := setTimer true cb s
  { s with runningIntervals := s.runningIntervals ++ [iv] }

/-- Register a one-shot timer and push its handle on `runningTimeouts`. -/
def pushTimeout (cb : Callback) (s : State) : State :=
  let (t, s) := setTimer false cb s
  { s with runningTimeouts := s.runningTimeouts ++ [t] }

/-- The loop `for (let i = 0; i < 3; i++) runningTimeouts.push(setTimeout(spawn, i * 300))`. -/
def initialBursts (cb : Callback) (s : State) : State :=
  (List.range 3).foldl (fun acc _ => pushTimeout cb acc) s

/-- Exercise 1, `movingDot(opts)`. -/
def movingDot (duration : Int) (s : State) : State :=
  let (_, s) := appendNew { kind := NodeKind.dot, onClick := Handler.movingDot duration } s
  pushInterval Callback.motion s

/-- Exercise 2, `bouncingBall(opts)`. -/
def bouncingBall (s : State) : State :=
  let (ball, s) := appendNew { kind := NodeKind.ball, onClick := Handler.bouncingBall } s
  pushInterval (Callback.bounce ball (2 * speedMul s) ((3 / 2) * speedMul s)) s

/-- One run of the bouncing ball's interval callback on the position `(x, y)`
read from the ball's style and the velocity `(vx, vy)` of the closure, in a play
area whose `clientWidth - 56` is `w` and `clientHeight - 56` is `h`: the new
position and velocity. The style holds what the callback wrote, a number of
pixels, or nothing (then 10 is taken), so `isNaN(x)` is false and the branch
that restarts from `(20, 20)` is not entered. -/
def bounceStep (w h x y vx vy : ℚ) : ℚ × ℚ × ℚ × ℚ :=
  let x := x + vx
  let y := y + vy
  let (vx, x) := if x < 0 ∨ x > w then (vx * -1, max 0 (min w x)) else (vx, x)
  let (vy, y) := if y < 0 ∨ y > h then (vy * -1, max 0 (min h y)) else (vy, y)
  (x, y, vx, vy)

/-- The function `spawn` of `peripheralFlash`: a flash on a random side, its
expiry timeout, its click listener. -/
def flashSpawn (s : State) : State :=
  let w := s.clientWidth
  let h := s.clientHeight
  let (r, s) := random s
  let (q, s) := random s
  let pos : ℚ × ℚ :=
    if r.val < 1 / 4 then (q.val * (w - 80) + 40, 20)
    else if r.val < 1 / 2 then (w - 80, q.val * (h - 80) + 40)
    else if r.val < 3 / 4 then (q.val * (w - 80) + 40, h - 80)
    else (20, q.val * (h - 80) + 40)
  let (edge, s) := appendNew { kind := NodeKind.edge, left := some pos.1, top := some pos.2,
                               onClick := Handler.peripheralFlash } s
  pushTimeout (Callback.removeNode edge) s

/-- Exercise 3, `peripheralFlash(opts)`. -/
def peripheralFlash (s : State) : State :=
  let s := pushInterval Callback.flashSpawn s
  initialBursts Callback.flashSpawn s

/-- The string `letters` of `letterZoom`. -/
def letters : List Char := "ABCDEFGHJKLMNPQRSTUVWXYZ".toList

/-- The expression `letters[idx]`. -/
def letterAt (idx : Nat) : String := String.singleton (letters.getD idx ' ')

/-- Exercise 4, `letterZoom(opts)`. -/
def letterZoom (s : State) : State :=
  let (el, s) := appendNew { kind := NodeKind.bigLetter, textContent := letterAt 0,
                             onClick := Handler.letterZoom } s
  pushInterval (Callback.letterCycle el 0) s

/-- Exercise 5, `followStar(opts)`. -/
def followStar (s : State) : State :=
  let (_, s) := appendNew { kind := NodeKind.star, onClick := Handler.followStar } s
  pushInterval Callback.motion s

/-- The array `shapes` of `shapeMatch`, as the source file spells it. -/
def shapes : List String :=
  ["\uF8FFüê¶", "\uF8FFü¶Ñ", "\uF8FFü¶ã", "‚öΩ", "\uF8FFü¶Å",
   "\uF8FFüå∏", "\uF8FFüçÄ", "\uF8FFüü©", "\uF8FFüòÄ", "\uF8FFüî∑", "\uF8FFüü£"]

/-- The array `colors` inside `refreshRound`. -/
def optionColors : List String :=
  ["#d63384", "#6f42c1", "#0dcaf0", "#198754", "#ffc107", "#343a40", "#FF6633", "#FFB399",
   "#FF33FF", "#FFFF99", "#00B3E6", "#E6B333", "#3366E6", "#999966", "#99FF99", "#B34D4D",
   "#80B300", "#809900", "#E6B3B3", "#6680B3", "#66991A", "#FF99E6", "#CCFF1A", "#FF1A66",
   "#E6331A", "#33FFCC", "#66994D", "#B366CC", "#4D8000", "#B33300", "#CC80CC", "#66664D",
   "#991AFF", "#E666FF", "#4DB3FF", "#1AB399", "#E666B3", "#33991A"]

/-- One iteration of `positions.forEach` in `refreshRound`, for position `i`:
the option's colour is drawn, its text is `current` at `correctIndex` and a
drawn shape elsewhere, it is appended and pushed on `edgeElems`. -/
def addOption (duration : Int) (current : String) (correctIndex : Nat) (s : State) (i : Nat) :
    State :=
  let (rc, s) := random s
  let (text, s) :=
    if i = correctIndex then (current, s)
    else
      let (rs, s) := random s
      (shapes.getD (rs.index shapes.length) "", s)
  let (el, s) := appendNew { kind := NodeKind.shapeOption, textContent := text,
                             color := optionColors.getD (rc.index optionColors.length) "",
                             onClick := Handler.shapeMatch duration current } s
  { s with edgeElems := s.edgeElems ++ [el] }

/-- The function `refreshRound` of `shapeMatch`; `positions` has four entries. -/
def refreshRound (duration : Int) (s : State) : State :=
  let (r, s) := random s
  let current := shapes.getD (r.index shapes.length) ""
  let s := { s with node := Function.update s.node s.center
                                { s.node s.center with textContent := current } }
  let s := s.edgeElems.foldl (fun acc e => removeNode e acc) s
  let s := { s with edgeElems := [] }
  let (rc, s) := random s
  let correctIndex := rc.index 4
  (List.range 4).foldl (addOption duration current correctIndex) s

/-- Exercise 6, `shapeMatch(opts)`. -/
def shapeMatch (duration : Int) (s : State) : State :=
  let (center, s) := appendNew { kind := NodeKind.shapeTarget } s
  let s := { s with center := center, edgeElems := [] }
  refreshRound duration s

/-- The array `colors` of `colorCatch`. -/
def catchColors : List String := ["#ff6b6b", "#4aa3ff", "#8ae68a", "#ffd36b"]

/-- The colour name shown in the title of `colorCatch`. -/
def colorName (target : String) : String :=
  if target = catchColors.getD 0 "" then "Red"
  else if target = catchColors.getD 1 "" then "Blue"
  else if target = catchColors.getD 2 "" then "Green"
  else "Yellow"

/-- The function `spawn` of `colorCatch`: a square of a drawn colour at a drawn
place, its click listener, its expiry timeout. -/
def colorSpawn (duration : Int) (target : String) (s : State) : State :=
  let (rc, s) := random s
  let (rx, s) := random s
  let (ry, s) := random s
  let (c, s) := appendNew { kind := NodeKind.square,
                            background := catchColors.getD (rc.index catchColors.length) "",
                            left := some (rx.val * (s.clientWidth - 80) + 20),
                            top := some (ry.val * (s.clientHeight - 120) + 60),
                            onClick := Handler.colorCatch duration target } s
  pushTimeout (Callback.removeNode c) s

/-- Exercise 7, `colorCatch(opts)`. -/
def colorCatch (duration : Int) (s : State) : State :=
  let (r, s) := random s
  let target := catchColors.getD (r.index catchColors.length) ""
  let (_, s) := appendNew { kind := NodeKind.title,
                            textContent := "Catch color: " ++ colorName target } s
  let s := pushInterval (Callback.colorSpawn duration target) s
  initialBursts (Callback.colorSpawn duration target) s

/-- The array `colors` of `spiralFocus`. -/
def spiralColors : List String := ["#ff4757", "#1e90ff", "#2ed573", "#ffa502", "#e84393"]

/-- Exercise 10, `spiralFocus(opts)`: forty decorative dots, their rotation
interval, the scoring dot at the centre. -/
def spiralFocus (duration : Int) (s : State) : State :=
  let centerX := s.clientWidth / 2
  let centerY := s.clientHeight / 2
  let s := (List.range 40).foldl
    (fun acc i => (appendNew { kind := NodeKind.spiralDot,
                               background := spiralColors.getD (i % spiralColors.length) "" } acc).2) s
  let s := pushInterval Callback.motion s
  (appendNew { kind := NodeKind.focusDot, background := "#000",
               left := some (centerX - 20), top := some (centerY - 20),
               onClick := Handler.spiralFocus duration } s).2

/-! ## Dispatch on the exercise identifier -/

/-- The own keys of the `Exercises` object literal, in the order of the source
(`slowBlink` and `memoryMatch` are commented out there). -/
def ownKeys : List (String × Exercise) :=
  [("movingDot", Exercise.movingDot), ("bouncingBall", Exercise.bouncingBall),
   ("peripheralFlash", Exercise.peripheralFlash), ("letterZoom", Exercise.letterZoom),
   ("followStar", Exercise.followStar), ("shapeMatch", Exercise.shapeMatch),
   ("colorCatch", Exercise.colorCatch), ("spiralFocus", Exercise.spiralFocus)]

/-- The property names every object literal inherits from `Object.prototype`. -/
def objectPrototypeKeys : List String :=
  ["constructor", "__defineGetter__", "__defineSetter__", "hasOwnProperty",
   "__lookupGetter__", "__lookupSetter__", "isPrototypeOf", "propertyIsEnumerable",
   "toString", "valueOf", "__proto__", "toLocaleString"]

/-- The property read `Exercises[exId]`: an own method of the literal, else a
member found on the prototype chain, else `undefined` (here `none`). Every
member is truthy, so `if (!exFn) return;` returns exactly on `none`. -/
def Exercises (exId : String) : Option Member :=
  match ownKeys.lookup exId with
  | some e => some (Member.own e)
  | none => if exId ∈ objectPrototypeKeys then some (Member.inherited exId) else none

/-- The call `exFn({ duration, speed })` of an own method. -/
def runExercise (e : Exercise) (duration : Int) (s : State) : State :=
  match e with
  | Exercise.movingDot => movingDot duration s
  | Exercise.bouncingBall => bouncingBall s
  | Exercise.peripheralFlash => peripheralFlash s
  | Exercise.letterZoom => letterZoom s
  | Exercise.followStar => followStar s
  | Exercise.shapeMatch => shapeMatch duration s
  | Exercise.colorCatch => colorCatch duration s
  | Exercise.spiralFocus => spiralFocus duration s

/-- The call `exFn({ duration, speed })`, with `this` undefined. An inherited
`toString` or `constructor` returns a value and has no effect; the other
inherited members throw a `TypeError` (`none`): they convert `this` to an
object, and `__proto__` is not a function. -/
def callMember (m : Member) (duration : Int) (s : State) : Option State :=
  match m with
  | Member.own e => some (runExercise e duration s)
  | Member.inherited name =>
    if name = "toString" ∨ name = "constructor" then some s else none

/-! ## Click listeners and timer callbacks -/

/-- The statement `score = Math.max(0, score - 1)`. -/
def penalize (s : State) : State := { s with score := max 0 (s.score - 1) }

/-- The click listener of node `el`, run on a click. -/
def runHandler (el : Nat) (s : State) : State :=
  match (s.node el).onClick with
  | Handler.none => s
  | Handler.movingDot duration => updateHUD duration { s with score := s.score + 1 }
  | Handler.bouncingBall => { s with score := s.score + 2 }
  | Handler.peripheralFlash => removeNode el { s with score := s.score + 3 }
  | Handler.letterZoom => { s with score := s.score + 2 }
  | Handler.followStar => { s with score := s.score + 2 }
  | Handler.shapeMatch duration current =>
    if (s.node el).textContent = current then
      refreshRound duration (updateHUD duration { s with score := s.score + 4 })
    else
      updateHUD duration (penalize s)
  | Handler.colorCatch duration target =>
    let s := if (s.node el).background = target then { s with score := s.score + 3 }
             else penalize s
    updateHUD duration (removeNode el s)
  | Handler.spiralFocus duration => updateHUD duration { s with score := s.score + 3 }

/-- A click reaches a node only while it is a child of the play area. -/
def click (el : Nat) (s : State) : State :=
  if el ∈ s.playArea then runHandler el s else s

/-- Write back the closure variables of the timer `h`, if it is still
registered. -/
def setClosure (h : Nat) (cb : Callback) (s : State) : State :=
  { s with timers := s.timers.map (fun tm => if tm.handle = h then { tm with cb := cb } else tm) }

/-- The body of the callback of timer `h`. The countdown clears the handle held
by the global `timer`, whichever timer that is. -/
def runCallback (h : Nat) (cb : Callback) (s : State) : State :=
  match cb with
  | Callback.countdown t =>
    let t := t - 1
    let s := setClosure h (Callback.countdown t) s
    let s := updateHUD t s
    if t ≤ 0 then finalizeSession (clearRunning (clearInterval s.timer s)) else s
  | Callback.motion => s
  | Callback.bounce ball vx vy =>
    let n := s.node ball
    let (x, y, vx, vy) :=
      bounceStep (s.clientWidth - 56) (s.clientHeight - 56) (n.left.getD 10) (n.top.getD 10) vx vy
    let s := setClosure h (Callback.bounce ball vx vy) s
    { s with node := Function.update s.node ball { n with left := some x, top := some y } }
  | Callback.letterCycle el idx =>
    let idx := (idx + 1) % letters.length
    let s := setClosure h (Callback.letterCycle el idx) s
    { s with node := Function.update s.node el { s.node el with textContent := letterAt idx } }
  | Callback.flashSpawn => flashSpawn s
  | Callback.colorSpawn duration target => colorSpawn duration target s
  | Callback.removeNode el => removeNode el s

/-- The browser runs the callback of timer `h` if it is live; a timeout leaves
the table as it fires. -/
def timerFires (h : Nat) (s : State) : State :=
  match s.timers.find? (fun tm => tm.handle == h) with
  | none => s
  | some tm =>
    let s := if tm.repeating then s else clearInterval (some h) s
    runCallback h tm.cb s

/-! ## The controller -/

/-- The statements of `startSession` up to the lookup of the exercise:
teardown of the running exercise, `score = 0`, the HUD, the session counter. -/
def startReset (s : State) : State :=
  let s := clearRunning s
  let s := { s with score := 0 }
  let s := updateHUD s.durationValue s
  let s := { s with sessions := s.sessions + 1 }
  { s with sessionCountText := toString s.sessions }

/-- The statements of `startSession` after the exercise has been launched:
`let t = duration; updateHUD(t); timer = setInterval(.., 1000)`. -/
def startCountdown (duration : Int) (s : State) : State :=
  let t := duration
  let s := updateHUD t s
  let (h, s) := setTimer true (Callback.countdown t) s
  { s with timer := some h }

/-- The function `startSession`, the click listener of the start button. It
returns early when the lookup yields `undefined`, and it is left by the
exception when the member it calls throws. -/
def startSession (s : State) : State :=
  let s := startReset s
  let duration := s.durationValue
  let exId := s.exerciseValue
  match Exercises exId with
  | none => s
  | some exFn =>
    match callMember exFn duration s with
    | none => s
    | some s => startCountdown duration s

/-- The function `stopSession`. -/
def stopSession (s : State) : State :=
  clearRunning (clearInterval s.timer s)

/-- The click listener of the stop button. -/
def stopBtnClick (s : State) : State :=
  clearRunning (clearInterval s.timer s)

/-- The click listener of the reset button. -/
def resetBtnClick (s : State) : State :=
  let s := clearRunning (clearInterval s.timer s)
  let s := { s with score := 0, sessions := 0 }
  let s := updateHUD s.durationValue s
  { s with sessionCountText := "0" }

/-- The `visibilitychange` listener when the document is hidden. -/
def onHidden (s : State) : State := clearInterval s.timer s

/-- One event of the page. -/
def step (s : State) (e : Event) : State :=
  match e with
  | Event.startClick => startSession s
  | Event.stopClick => stopBtnClick s
  | Event.resetClick => resetBtnClick s
  | Event.hidden => onHidden s
  | Event.setDuration d => { s with durationValue := d }
  | Event.setSpeed v label => { s with speedValue := v, speedOptionText := label }
  | Event.selectExercise exId => { s with exerciseValue := exId }
  | Event.timerFires h => timerFires h s
  | Event.click el => click el s

/-- A sequence of events, oldest first. -/
def run (s : State) (es : List Event) : State := es.foldl step s

/-- The page once the script has loaded: `score = 0`, `timer = null`, no
timers, an empty play area, the first exercise of the list selected; the
duration field, the speed control, the size of the play area and the random
source are the environment's. -/
def init (duration : Int) (speed : ℚ) (width height : ℚ) (rand : Nat → Draw) : State :=
  { score := 0, timer := none, runningIntervals := [], runningTimeouts := [], sessions := 0,
    durationValue := duration, exerciseValue := "movingDot", speedValue := speed,
    speedOptionText := "", clientWidth := width, clientHeight := height,
    scoreText := "", timeLeftText := "", speedLabelText := "", sessionCountText := "",
    alerts := [], node := fun _ => { kind := NodeKind.dot }, nextNode := 0, playArea := [],
    timers := [], nextHandle := 1, center := 0, edgeElems := [],
    rand := rand, randPos := 0 }

/-- The live timers' handles. -/
def liveHandles (s : State) : List Nat := s.timers.map (fun tm => tm.handle)

/-! ## Specification-side definitions and invariants -/

/-- The value of `correctIndex` that `refreshRound` draws when it runs in state
`s`: its second draw, scaled to the four positions. -/
def drawnCorrectIndex (s : State) : Nat := (s.rand (s.randPos + 1)).index 4

/-- A round of `shapeMatch` is on display, with its guaranteed slot at index
`ci`: the play area holds the centre target followed by exactly the four
options of `edgeElems`; each option is a node of its own carrying the round's
click listener, whose `current` is the centre's text; and the option at `ci`
shows the centre's text. -/
def Round (s : State) (ci : Nat) : Prop :=
  s.center < s.nextNode ∧
  s.playArea = s.center :: s.edgeElems ∧
  s.edgeElems.length = 4 ∧
  s.edgeElems.Nodup ∧
  (∀ el ∈ s.edgeElems, el ≠ s.center ∧ el < s.nextNode ∧
    (s.node el).kind = NodeKind.shapeOption ∧
    ∃ d, (s.node el).onClick = Handler.shapeMatch d (s.node s.center).textContent) ∧
  ∃ el, s.edgeElems[ci]? = some el ∧
    (s.node el).textContent = (s.node s.center).textContent

/-- The loop of `refreshRound` after `k` of its iterations, the first option
being node `n0`: the options so far are the nodes `n0 .. n0 + k - 1`. -/
def Building (d : Int) (cur : String) (ci n0 k : Nat) (s : State) : Prop :=
  s.nextNode = n0 + k ∧ s.center < n0 ∧ s.playArea = s.center :: s.edgeElems ∧
  s.edgeElems = List.range' n0 k ∧ (s.node s.center).textContent = cur ∧
  ∀ j, j < k → (s.node (n0 + j)).kind = NodeKind.shapeOption ∧
    (s.node (n0 + j)).onClick = Handler.shapeMatch d cur ∧
    (j = ci → (s.node (n0 + j)).textContent = cur)

/-- Every live timer that is not a countdown has its handle on one of the two
running lists. -/
def Tracked (s : State) : Prop :=
  ∀ tm ∈ s.timers, (∃ t, tm.cb = Callback.countdown t) ∨
    tm.handle ∈ s.runningIntervals ∨ tm.handle ∈ s.runningTimeouts

/-- The timer table is well formed: every handle was handed out (it is below
`nextHandle`), no two timers share a handle, and every callback of the
bouncing ball belongs to an interval and carries a velocity whose components
are not zero. -/
def TimersWF (s : State) : Prop :=
  (∀ tm ∈ s.timers, tm.handle < s.nextHandle) ∧
  (s.timers.map (fun tm => tm.handle)).Nodup ∧
  ∀ tm ∈ s.timers, ∀ (ball : Nat) (vx vy : ℚ), tm.cb = Callback.bounce ball vx vy →
    tm.repeating = true ∧ vx ≠ 0 ∧ vy ≠ 0

/-- The states the page can be in: those reached from the loaded page by some
sequence of events. -/
def Reachable (s : State) : Prop :=
  ∃ (duration : Int) (speed width height : ℚ) (rand : Nat → Draw) (es : List Event),
    s = run (init duration speed width height rand) es

/-! ## A concrete page -/

/-- A random source for concrete runs: the draws `0, 1/5, 2/5, 3/5, 4/5, 0, ...`. -/
def demoRand : Nat → Draw := fun n => { num := n % 5, den := 5, lt := Nat.mod_lt n (by decide) }

/-- The loaded page with the given duration in the duration field, medium
speed, an 800 by 600 play area and the draws of `demoRand`. -/
def demo (duration : Int) : State := init duration 1 800 600 demoRand

/-- The page `demo` after `shapeMatch` has been selected and started. -/
def demoShape (duration : Int) : State :=
  run (demo duration) [Event.selectExercise "shapeMatch", Event.startClick]

/-- The page `demo 10` after `bouncingBall` has been selected and started: the
ball is node 0, its motion interval has handle 1. -/
def demoBall : State :=
  run (demo 10) [Event.selectExercise "bouncingBall", Event.startClick]

/-- The events of a whole `bouncingBall` session in which the ball is clicked
twice: select, start, two clicks on the ball (node 0), then `ticks` ticks of the
countdown (handle 2). -/
def twoClickSession (ticks : Nat) : List Event :=
  [Event.selectExercise "bouncingBall", Event.startClick, Event.click 0, Event.click 0] ++
    List.replicate ticks (Event.timerFires 2)

/-! ## Frame lemmas: what the primitives leave alone -/

theorem clearAll_eq (l : List Nat) (s : State) :
    l.foldl (fun acc i => clearInterval (some i) acc) s =
      { s with timers := s.timers.filter (fun tm => !l.contains tm.handle) } := by
  induction l generalizing s with
  | nil => simp
  | cons a l ih =>
    rw [List.foldl_cons, ih]
    simp only [clearInterval, List.filter_filter]
    congr 1
    apply List.filter_congr
    intro tm _
    by_cases h : tm.handle = a <;> simp [h, List.contains_cons, Bool.and_comm]

theorem clearRunning_eq (s : State) :
    clearRunning s =
      { s with timers := s.timers.filter (fun tm =>
                 !s.runningTimeouts.contains tm.handle && !s.runningIntervals.contains tm.handle),
               runningIntervals := [], runningTimeouts := [], playArea := [] } := by
  simp [clearRunning, clearAll_eq, List.filter_filter]

theorem removeAll_eq (l : List Nat) (s : State) :
    l.foldl (fun acc e => removeNode e acc) s =
      { s with playArea := s.playArea.filter (fun x => !l.contains x) } := by
  induction l generalizing s with
  | nil => simp
  | cons a l ih =>
    rw [List.foldl_cons, ih]
    simp only [removeNode, List.filter_filter]
    congr 1
    apply List.filter_congr
    intro x _
    by_cases h : x = a <;> simp [h, List.contains_cons, Bool.and_comm]

theorem foldl_score {α : Type} (f : State → α → State)
    (hf : ∀ s a, (f s a).score = s.score) (l : List α) (s : State) :
    (l.foldl f s).score = s.score := by
  induction l generalizing s with
  | nil => rfl
  | cons a l ih => simp [ih, hf]

@[simp] theorem score_clearInterval (h : Option Nat) (s : State) :
    (clearInterval h s).score = s.score := by
  cases h <;> rfl

@[simp] theorem score_clearRunning (s : State) : (clearRunning s).score = s.score := by
  simp [clearRunning_eq]

@[simp] theorem score_pushInterval (cb : Callback) (s : State) :
    (pushInterval cb s).score = s.score := rfl

@[simp] theorem score_pushTimeout (cb : Callback) (s : State) :
    (pushTimeout cb s).score = s.score := rfl

@[simp] theorem score_removeNode (el : Nat) (s : State) :
    (removeNode el s).score = s.score := rfl

@[simp] theorem score_updateHUD (t : Int) (s : State) : (updateHUD t s).score = s.score := rfl

@[simp] theorem score_setClosure (h : Nat) (cb : Callback) (s : State) :
    (setClosure h cb s).score = s.score := rfl

@[simp] theorem score_finalizeSession (s : State) : (finalizeSession s).score = s.score := rfl

@[simp] theorem score_initialBursts (cb : Callback) (s : State) :
    (initialBursts cb s).score = s.score :=
  foldl_score (fun acc _ => pushTimeout cb acc) (fun _ _ => rfl) _ _

@[simp] theorem score_foldl_removeNode (l : List Nat) (s : State) :
    (l.foldl (fun acc e => removeNode e acc) s).score = s.score :=
  foldl_score (fun acc e => removeNode e acc) (fun _ _ => rfl) _ _

@[simp] theorem score_flashSpawn (s : State) : (flashSpawn s).score = s.score := rfl

@[simp] theorem score_colorSpawn (d : Int) (t : String) (s : State) :
    (colorSpawn d t s).score = s.score := rfl

@[simp] theorem score_addOption (d : Int) (cur : String) (ci : Nat) (s : State) (i : Nat) :
    (addOption d cur ci s i).score = s.score := by
  unfold addOption
  split_ifs <;> rfl

@[simp] theorem score_refreshRound (d : Int) (s : State) :
    (refreshRound d s).score = s.score := by
  unfold refreshRound
  simp only [random]
  rw [foldl_score _ (score_addOption d _ _)]
  exact score_foldl_removeNode _ _

@[simp] theorem score_runExercise (e : Exercise) (d : Int) (s : State) :
    (runExercise e d s).score = s.score := by
  cases e
  · rfl
  · rfl
  · simp [runExercise, peripheralFlash]
  · rfl
  · rfl
  · simp [runExercise, shapeMatch, appendNew]
  · simp [runExercise, colorCatch, appendNew, random]
  · simp only [runExercise, spiralFocus, appendNew, pushInterval, setTimer]
    exact foldl_score (fun acc i => (appendNew _ acc).2) (fun _ _ => rfl) _ _

@[simp] theorem durationValue_clearRunning (s : State) :
    (clearRunning s).durationValue = s.durationValue := by
  simp [clearRunning_eq]

@[simp] theorem exerciseValue_clearRunning (s : State) :
    (clearRunning s).exerciseValue = s.exerciseValue := by
  simp [clearRunning_eq]

@[simp] theorem sessions_clearRunning (s : State) : (clearRunning s).sessions = s.sessions := by
  simp [clearRunning_eq]

@[simp] theorem sessions_clearInterval (h : Option Nat) (s : State) :
    (clearInterval h s).sessions = s.sessions := by
  cases h <;> rfl

theorem toString_zero : toString (0 : Int) = "0" := by decide

@[simp] theorem playArea_startReset (s : State) : (startReset s).playArea = [] := by
  simp [startReset, clearRunning_eq, updateHUD]

@[simp] theorem rand_startReset (s : State) : (startReset s).rand = s.rand := by
  simp [startReset, clearRunning_eq, updateHUD]

@[simp] theorem randPos_startReset (s : State) : (startReset s).randPos = s.randPos := by
  simp [startReset, clearRunning_eq, updateHUD]

@[simp] theorem exerciseValue_startReset (s : State) :
    (startReset s).exerciseValue = s.exerciseValue := by
  simp [startReset, clearRunning_eq, updateHUD]

@[simp] theorem durationValue_startReset (s : State) :
    (startReset s).durationValue = s.durationValue := by
  simp [startReset, clearRunning_eq, updateHUD]

theorem startSession_own (s : State) (e : Exercise)
    (h : Exercises s.exerciseValue = some (Member.own e)) :
    startSession s = startCountdown s.durationValue (runExercise e s.durationValue (startReset s)) := by
  simp [startSession, h, callMember]

/-! ## Starting a session -/

/-- C1: for every prior state and every configured integer duration, right
after `startSession` returns with a registered exercise identifier selected,
`score` is 0, the HUD shows the score 0 and the time `'00:'` followed by the
padded duration, and the countdown this call registered, whose handle the
global `timer` holds, has its `t` equal to the duration. -/
theorem startSession_resets (s : State) (e : Exercise)
    (hreg : Exercises s.exerciseValue = some (Member.own e)) :
    (startSession s).score = 0 ∧
    (startSession s).scoreText = "0" ∧
    (startSession s).timeLeftText = "00:" ++ padStart2 (toString s.durationValue) ∧
    ∃ h, (startSession s).timer = some h ∧
      (startSession s).timers.getLast? =
        some { handle := h, repeating := true, cb := Callback.countdown s.durationValue } := by
  simp [startSession, startReset, startCountdown, updateHUD, hreg, callMember, setTimer,
    toString_zero]

/-- Witness of C1: the loaded page with duration 10 and `movingDot` selected. -/
theorem startSession_resets_witness :
    (startSession (demo 10)).score = 0 ∧
    (startSession (demo 10)).scoreText = "0" ∧
    (startSession (demo 10)).timeLeftText = "00:10" ∧
    ∃ h, (startSession (demo 10)).timer = some h ∧
      (startSession (demo 10)).timers.getLast? =
        some { handle := h, repeating := true, cb := Callback.countdown 10 } :=
  startSession_resets (demo 10) Exercise.movingDot (by decide)

/-! ## Scoring -/

theorem score_callMember (m : Member) (d : Int) (s s1 : State)
    (h : callMember m d s = some s1) : s1.score = s.score := by
  cases m with
  | own e =>
    simp only [callMember, Option.some.injEq] at h
    rw [← h, score_runExercise]
  | inherited name =>
    simp only [callMember] at h
    split_ifs at h
    simp only [Option.some.injEq] at h
    rw [h]

@[simp] theorem score_startReset (s : State) : (startReset s).score = 0 := rfl

@[simp] theorem score_startCountdown (d : Int) (s : State) :
    (startCountdown d s).score = s.score := rfl

theorem score_startSession (s : State) : (startSession s).score = 0 := by
  unfold startSession
  dsimp only
  split
  · rfl
  · split
    · rfl
    · rename_i h
      rw [score_startCountdown, score_callMember _ _ _ _ h, score_startReset]

theorem score_runCallback (h : Nat) (cb : Callback) (s : State) :
    (runCallback h cb s).score = s.score := by
  cases cb with
  | countdown t =>
    simp only [runCallback]
    split_ifs <;> simp
  | motion => rfl
  | bounce ball vx vy => rfl
  | letterCycle el idx => rfl
  | flashSpawn => rfl
  | colorSpawn d t => rfl
  | removeNode el => rfl

theorem score_timerFires (h : Nat) (s : State) : (timerFires h s).score = s.score := by
  unfold timerFires
  cases s.timers.find? (fun tm => tm.handle == h) with
  | none => rfl
  | some tm =>
    simp only [score_runCallback]
    split_ifs <;> simp

theorem score_click_nonneg (el : Nat) (s : State) (hs : 0 ≤ s.score) :
    0 ≤ (click el s).score := by
  unfold click
  split_ifs
  · unfold runHandler
    cases (s.node el).onClick <;> simp [penalize] <;> try omega
    · split_ifs
      · simp; omega
      · simp
    · split_ifs
      · simp; omega
      · simp
  · exact hs

theorem score_step_nonneg (s : State) (e : Event) (hs : 0 ≤ s.score) :
    0 ≤ (step s e).score := by
  cases e with
  | startClick => simp [step, score_startSession]
  | stopClick => simpa [step, stopBtnClick] using hs
  | resetClick => simp [step, resetBtnClick]
  | hidden => simpa [step, onHidden] using hs
  | setDuration d => exact hs
  | setSpeed v label => exact hs
  | selectExercise exId => exact hs
  | timerFires h => simpa [step, score_timerFires] using hs
  | click el => exact score_click_nonneg el s hs

theorem score_run_nonneg (es : List Event) (s : State) (hs : 0 ≤ s.score) :
    0 ≤ (run s es).score := by
  induction es generalizing s with
  | nil => exact hs
  | cons e es ih => exact ih (step s e) (score_step_nonneg s e hs)

/-- C3: `score` is never negative. Started from the loaded page, where it is 0,
every sequence of start, stop, reset, timer and click events keeps `0 ≤ score`;
and a click on a wrong option of `shapeMatch` or on a wrong square of
`colorCatch` sets the score to `max 0 (score - 1)`. -/
theorem score_never_negative :
    (∀ (duration : Int) (speed width height : ℚ) (rand : Nat → Draw) (es : List Event),
      0 ≤ (run (init duration speed width height rand) es).score) ∧
    (∀ (s : State) (el : Nat) (d : Int) (cur : String), el ∈ s.playArea →
      (s.node el).onClick = Handler.shapeMatch d cur → (s.node el).textContent ≠ cur →
      (click el s).score = max 0 (s.score - 1)) ∧
    (∀ (s : State) (el : Nat) (d : Int) (target : String), el ∈ s.playArea →
      (s.node el).onClick = Handler.colorCatch d target → (s.node el).background ≠ target →
      (click el s).score = max 0 (s.score - 1)) := by
  refine ⟨fun duration speed width height rand es => ?_, ?_, ?_⟩
  · exact score_run_nonneg es _ (le_refl _)
  · intro s el d cur hel hh hne
    simp [click, hel, runHandler, hh, hne, penalize]
  · intro s el d target hel hh hne
    simp [click, hel, runHandler, hh, hne, penalize]

/-- Witness of C3: a run with a right and two wrong clicks, and a wrong click
(node 2) at score 0, which leaves the score at 0. -/
theorem score_never_negative_witness :
    0 ≤ (run (demo 10) [Event.selectExercise "shapeMatch", Event.startClick, Event.click 1,
      Event.click 6, Event.click 6]).score ∧
    (click 2 (demoShape 10)).score = max 0 (0 - 1) :=
  ⟨score_never_negative.1 10 1 800 600 demoRand _,
   score_never_negative.2.1 (demoShape 10) 2 10 (shapes.getD 0 "") (by decide) (by decide)
     (by decide)⟩

/-! ## Stopping a session -/

theorem tracked_congr (s t : State) (h1 : t.timers = s.timers)
    (h2 : t.runningIntervals = s.runningIntervals) (h3 : t.runningTimeouts = s.runningTimeouts)
    (h : Tracked s) : Tracked t := by
  unfold Tracked at h ⊢
  rw [h1, h2, h3]
  exact h

theorem tracked_foldl {α : Type} (f : State → α → State)
    (hf : ∀ s a, Tracked s → Tracked (f s a)) (l : List α) (s : State) (h : Tracked s) :
    Tracked (l.foldl f s) := by
  induction l generalizing s with
  | nil => exact h
  | cons a l ih => exact ih _ (hf s a h)

theorem tracked_clearInterval (h : Option Nat) (s : State) (hs : Tracked s) :
    Tracked (clearInterval h s) := by
  cases h with
  | none => exact hs
  | some i =>
    intro tm htm
    exact hs tm (List.mem_of_mem_filter htm)

theorem tracked_clearRunning (s : State) (hs : Tracked s) : Tracked (clearRunning s) := by
  rw [clearRunning_eq]
  intro tm htm
  simp at htm
  rcases hs tm htm.1 with h | h | h
  · exact Or.inl h
  · exact absurd h htm.2.2
  · exact absurd h htm.2.1

theorem tracked_appendNew (n : Node) (s : State) (hs : Tracked s) : Tracked (appendNew n s).2 :=
  tracked_congr s _ rfl rfl rfl hs

theorem tracked_pushInterval (cb : Callback) (s : State) (hs : Tracked s) :
    Tracked (pushInterval cb s) := by
  intro tm htm
  simp only [pushInterval, setTimer, List.mem_append, List.mem_singleton] at htm ⊢
  rcases htm with h | h
  · rcases hs tm h with h1 | h1 | h1
    · exact Or.inl h1
    · exact Or.inr (Or.inl (Or.inl h1))
    · exact Or.inr (Or.inr h1)
  · subst h
    exact Or.inr (Or.inl (Or.inr rfl))

theorem tracked_pushTimeout (cb : Callback) (s : State) (hs : Tracked s) :
    Tracked (pushTimeout cb s) := by
  intro tm htm
  simp only [pushTimeout, setTimer, List.mem_append, List.mem_singleton] at htm ⊢
  rcases htm with h | h
  · rcases hs tm h with h1 | h1 | h1
    · exact Or.inl h1
    · exact Or.inr (Or.inl h1)
    · exact Or.inr (Or.inr (Or.inl h1))
  · subst h
    exact Or.inr (Or.inr (Or.inr rfl))

theorem tracked_initialBursts (cb : Callback) (s : State) (hs : Tracked s) :
    Tracked (initialBursts cb s) :=
  tracked_foldl (fun acc _ => pushTimeout cb acc) (fun s _ h => tracked_pushTimeout cb s h) _ _ hs

theorem tracked_flashSpawn (s : State) (hs : Tracked s) : Tracked (flashSpawn s) := by
  unfold flashSpawn
  exact tracked_pushTimeout _ _ (tracked_congr s _ rfl rfl rfl hs)

theorem tracked_colorSpawn (d : Int) (t : String) (s : State) (hs : Tracked s) :
    Tracked (colorSpawn d t s) := by
  unfold colorSpawn
  exact tracked_pushTimeout _ _ (tracked_congr s _ rfl rfl rfl hs)

theorem tracked_addOption (d : Int) (cur : String) (ci : Nat) (s : State) (i : Nat)
    (hs : Tracked s) : Tracked (addOption d cur ci s i) := by
  unfold addOption
  by_cases hi : i = ci
  · simp only [hi, if_true]
    exact tracked_congr s _ rfl rfl rfl hs
  · simp only [hi, if_false]
    exact tracked_congr s _ rfl rfl rfl hs

theorem tracked_refreshRound (d : Int) (s : State) (hs : Tracked s) :
    Tracked (refreshRound d s) := by
  unfold refreshRound
  simp only [random, removeAll_eq]
  exact tracked_foldl _ (fun s i h => tracked_addOption d _ _ s i h) _ _
    (tracked_congr s _ rfl rfl rfl hs)

theorem tracked_runExercise (e : Exercise) (d : Int) (s : State) (hs : Tracked s) :
    Tracked (runExercise e d s) := by
  cases e with
  | movingDot => exact tracked_pushInterval _ _ (tracked_appendNew _ _ hs)
  | bouncingBall => exact tracked_pushInterval _ _ (tracked_appendNew _ _ hs)
  | peripheralFlash => exact tracked_initialBursts _ _ (tracked_pushInterval _ _ hs)
  | letterZoom => exact tracked_pushInterval _ _ (tracked_appendNew _ _ hs)
  | followStar => exact tracked_pushInterval _ _ (tracked_appendNew _ _ hs)
  | shapeMatch =>
    exact tracked_refreshRound _ _ (tracked_congr s _ rfl rfl rfl hs)
  | colorCatch =>
    exact tracked_initialBursts _ _ (tracked_pushInterval _ _ (tracked_congr s _ rfl rfl rfl hs))
  | spiralFocus =>
    simp only [runExercise, spiralFocus]
    refine tracked_appendNew _ _ (tracked_pushInterval _ _ ?_)
    exact tracked_foldl _ (fun s i h => tracked_appendNew _ s h) _ _ hs

theorem tracked_startSession (s : State) (hs : Tracked s) : Tracked (startSession s) := by
  have h0 : Tracked (startReset s) :=
    tracked_congr (clearRunning s) _ rfl rfl rfl (tracked_clearRunning s hs)
  have hcd : ∀ (d : Int) (s1 : State), Tracked s1 → Tracked (startCountdown d s1) := by
    intro d s1 h1 tm htm
    simp only [startCountdown, setTimer, updateHUD, List.mem_append, List.mem_singleton] at htm
    rcases htm with h | h
    · exact h1 tm h
    · subst h
      exact Or.inl ⟨d, rfl⟩
  unfold startSession
  dsimp only
  split
  · exact h0
  · rename_i m _
    split
    · exact h0
    · rename_i s1 hcall
      apply hcd
      cases m with
      | own e =>
        simp only [callMember, Option.some.injEq] at hcall
        rw [← hcall]
        exact tracked_runExercise e _ _ h0
      | inherited name =>
        simp only [callMember] at hcall
        split_ifs at hcall
        simp only [Option.some.injEq] at hcall
        rw [← hcall]
        exact h0

theorem tracked_setClosure (h : Nat) (cb : Callback) (s : State) (hs : Tracked s)
    (hcb : (∃ t, cb = Callback.countdown t) ∨ h ∈ s.runningIntervals ∨ h ∈ s.runningTimeouts) :
    Tracked (setClosure h cb s) := by
  intro tm htm
  simp only [setClosure, List.mem_map] at htm
  obtain ⟨tm0, h0, rfl⟩ := htm
  by_cases hh : tm0.handle = h
  · simp only [hh, if_true]
    exact hcb
  · simp only [hh, if_false]
    exact hs tm0 h0

theorem tracked_timerFires (h : Nat) (s : State) (hs : Tracked s) : Tracked (timerFires h s) := by
  unfold timerFires
  cases hfind : s.timers.find? (fun tm => tm.handle == h) with
  | none => exact hs
  | some tm =>
    have hmem : tm ∈ s.timers := List.mem_of_find?_eq_some hfind
    have hhandle : tm.handle = h := by
      have := List.find?_some hfind
      simpa using this
    have hs1 : Tracked (if tm.repeating = true then s else clearInterval (some h) s) := by
      split_ifs
      · exact hs
      · exact tracked_clearInterval _ _ hs
    have hlists : ∀ s1 : State, s1 = (if tm.repeating = true then s else clearInterval (some h) s) →
        s1.runningIntervals = s.runningIntervals ∧ s1.runningTimeouts = s.runningTimeouts := by
      intro s1 h1
      subst h1
      split_ifs <;> exact ⟨rfl, rfl⟩
    dsimp only
    generalize (if tm.repeating = true then s else clearInterval (some h) s) = s1 at hs1 hlists
    obtain ⟨hl1, hl2⟩ := hlists s1 rfl
    have htr := hs tm hmem
    rw [hhandle, ← hl1, ← hl2] at htr
    cases hcb : tm.cb with
    | countdown t =>
      simp only [runCallback]
      have h2 : Tracked (updateHUD (t - 1) (setClosure h (Callback.countdown (t - 1)) s1)) :=
        tracked_congr _ _ rfl rfl rfl (tracked_setClosure h _ s1 hs1 (Or.inl ⟨_, rfl⟩))
      split_ifs
      · exact tracked_congr _ _ rfl rfl rfl
          (tracked_clearRunning _ (tracked_clearInterval _ _ h2))
      · exact h2
    | motion => exact hs1
    | bounce ball vx vy =>
      simp only [runCallback]
      rw [hcb] at htr
      refine tracked_congr _ _ rfl rfl rfl (tracked_setClosure h _ s1 hs1 ?_)
      rcases htr with ⟨t, ht⟩ | h3
      · exact Callback.noConfusion ht
      · exact Or.inr h3
    | letterCycle el idx =>
      simp only [runCallback]
      rw [hcb] at htr
      refine tracked_congr _ _ rfl rfl rfl (tracked_setClosure h _ s1 hs1 ?_)
      rcases htr with ⟨t, ht⟩ | h3
      · exact Callback.noConfusion ht
      · exact Or.inr h3
    | flashSpawn => exact tracked_flashSpawn _ hs1
    | colorSpawn d t => exact tracked_colorSpawn d t _ hs1
    | removeNode el => exact tracked_congr s1 _ rfl rfl rfl hs1

theorem tracked_click (el : Nat) (s : State) (hs : Tracked s) : Tracked (click el s) := by
  unfold click
  split_ifs
  · unfold runHandler
    cases (s.node el).onClick with
    | none => exact hs
    | movingDot d => exact tracked_congr s _ rfl rfl rfl hs
    | bouncingBall => exact tracked_congr s _ rfl rfl rfl hs
    | peripheralFlash => exact tracked_congr s _ rfl rfl rfl hs
    | letterZoom => exact tracked_congr s _ rfl rfl rfl hs
    | followStar => exact tracked_congr s _ rfl rfl rfl hs
    | shapeMatch d cur =>
      dsimp only
      split_ifs
      · exact tracked_refreshRound _ _ (tracked_congr s _ rfl rfl rfl hs)
      · exact tracked_congr s _ rfl rfl rfl hs
    | colorCatch d t =>
      dsimp only
      split_ifs
      · exact tracked_congr s _ rfl rfl rfl hs
      · exact tracked_congr s _ rfl rfl rfl hs
    | spiralFocus d => exact tracked_congr s _ rfl rfl rfl hs
  · exact hs

theorem tracked_step (s : State) (e : Event) (hs : Tracked s) : Tracked (step s e) := by
  cases e with
  | startClick => exact tracked_startSession s hs
  | stopClick => exact tracked_clearRunning _ (tracked_clearInterval _ _ hs)
  | resetClick =>
    exact tracked_congr _ _ rfl rfl rfl (tracked_clearRunning _ (tracked_clearInterval _ _ hs))
  | hidden => exact tracked_clearInterval _ _ hs
  | setDuration d => exact hs
  | setSpeed v label => exact hs
  | selectExercise exId => exact hs
  | timerFires h => exact tracked_timerFires h s hs
  | click el => exact tracked_click el s hs

theorem tracked_run (es : List Event) (s : State) (hs : Tracked s) : Tracked (run s es) := by
  induction es generalizing s with
  | nil => exact hs
  | cons e es ih => exact ih _ (tracked_step s e hs)

/-- In every state reached from the loaded page, `stopSession` cancels every
timer an exercise registered: a timer that is still live afterwards is a
countdown, and not the one whose handle `timer` holds. -/
theorem stopSession_cancels_exercise_timers (duration : Int) (speed width height : ℚ)
    (rand : Nat → Draw) (es : List Event) (tm : Timer)
    (htm : tm ∈ (stopSession (run (init duration speed width height rand) es)).timers) :
    (∃ t, tm.cb = Callback.countdown t) ∧
      (run (init duration speed width height rand) es).timer ≠ some tm.handle := by
  have hinit : Tracked (init duration speed width height rand) := by
    intro tm h
    simp [init] at h
  have hs := tracked_run es _ hinit
  generalize run (init duration speed width height rand) es = s at htm hs
  have h2 := tracked_clearRunning _ (tracked_clearInterval s.timer s hs) tm htm
  simp only [stopSession, clearRunning_eq, List.mem_filter] at htm
  refine ⟨?_, ?_⟩
  · rcases h2 with h | h | h
    · exact h
    · simp [clearRunning_eq] at h
    · simp [clearRunning_eq] at h
  · intro hst
    have := htm.1
    simp [clearInterval, hst] at this

/-- When moreover every live countdown is the one whose handle `timer` holds,
`stopSession` leaves no timer live at all. -/
theorem stopSession_clears_all (s : State) (hs : Tracked s)
    (hone : ∀ tm ∈ s.timers, (∃ t, tm.cb = Callback.countdown t) → s.timer = some tm.handle) :
    (stopSession s).timers = [] := by
  rw [List.eq_nil_iff_forall_not_mem]
  intro tm htm
  have h2 := tracked_clearRunning _ (tracked_clearInterval s.timer s hs) tm htm
  simp only [stopSession, clearRunning_eq, List.mem_filter] at htm
  have hmem : tm ∈ s.timers := by
    cases hst : s.timer with
    | none => simpa [clearInterval, hst] using htm.1
    | some i =>
      have := htm.1
      simp only [clearInterval, hst, List.mem_filter] at this
      exact this.1
  rcases h2 with h | h | h
  · have hst := hone tm hmem h
    have := htm.1
    simp [clearInterval, hst] at this
  · simp [clearRunning_eq] at h
  · simp [clearRunning_eq] at h

/-- Both `stopSession` and the stop button's listener clear the timer whose
handle `timer` holds and every timer on the two running lists. -/
theorem stopSession_clears_tracked (s : State) (h : Nat)
    (hh : s.timer = some h ∨ h ∈ s.runningIntervals ∨ h ∈ s.runningTimeouts) :
    h ∉ liveHandles (stopSession s) := by
  simp only [stopSession, clearRunning_eq, liveHandles, List.mem_map, List.mem_filter,
    not_exists, not_and]
  intro x hx hxh
  subst hxh
  rcases hh with hh | hh | hh
  · simp [clearInterval, hh] at hx
  · cases hst : s.timer <;> simp [clearInterval, hst, hh] at hx
  · cases hst : s.timer <;> simp [clearInterval, hst, hh] at hx

/-- C4 (failing run): two clicks on Start, then `stopSession`. The first call
registered the countdown with handle 2; the second call overwrote the global
`timer` without clearing it, so `stopSession` clears the timers 3 and 4 only:
timer 2 is still live after `stopSession` returns, and when it fires it
rewrites the HUD. -/
theorem stopSession_leaves_first_countdown :
    (run (demo 10) [Event.startClick]).timer = some 2 ∧
    liveHandles (run (demo 10) [Event.startClick, Event.startClick]) = [2, 3, 4] ∧
    liveHandles (stopSession (run (demo 10) [Event.startClick, Event.startClick])) = [2] ∧
    (stopSession (run (demo 10) [Event.startClick, Event.startClick])).timeLeftText = "00:10" ∧
    (timerFires 2 (stopSession (run (demo 10) [Event.startClick, Event.startClick]))).timeLeftText
      = "00:09" := by
  decide

/-! ## The countdown reaching zero -/

/-- A countdown whose handle the global `timer` holds removes itself from the
timer table on the tick that takes its `t` to 0 or below. -/
theorem countdown_clears_itself (s : State) (h : Nat) (tm : Timer)
    (hfind : s.timers.find? (fun x => x.handle == h) = some tm) (ht : s.timer = some h)
    (t : Int) (hcb : tm.cb = Callback.countdown t) (hrep : tm.repeating = true) (hle : t - 1 ≤ 0) :
    h ∉ liveHandles (timerFires h s) := by
  simp only [timerFires, hfind, hrep, if_true, hcb, runCallback, hle, finalizeSession, alert,
    clearRunning_eq, liveHandles, setClosure, updateHUD, ht, clearInterval]
  simp only [List.mem_map, List.mem_filter, not_exists, not_and]
  intro x hx hxh
  simp [hxh] at hx

/-- C5 (failing run): duration 1, two clicks on Start, then the first
countdown (handle 2) ticks twice. Its first tick reaches 0, clears the handle
held by `timer`, which is the second countdown's (4), and finalizes; timer 2
itself stays live, and its next tick finalizes a second time. -/
theorem first_countdown_finalizes_twice :
    (run (demo 1) [Event.startClick, Event.startClick, Event.timerFires 2]).alerts =
      ["Session complete! Score: 0"] ∧
    liveHandles (run (demo 1) [Event.startClick, Event.startClick, Event.timerFires 2]) = [2] ∧
    (run (demo 1) [Event.startClick, Event.startClick, Event.timerFires 2,
      Event.timerFires 2]).alerts =
      ["Session complete! Score: 0", "Session complete! Score: 0"] := by
  decide

/-! ## Unknown exercise identifiers -/

/-- The lookup yields `undefined` exactly for the names that are neither an own
key of the literal nor inherited from `Object.prototype`. -/
theorem Exercises_eq_none_iff (exId : String) :
    Exercises exId = none ↔
      exId ∉ ownKeys.map Prod.fst ∧ exId ∉ objectPrototypeKeys := by
  unfold Exercises
  cases h : ownKeys.lookup exId with
  | none =>
    have hk : exId ∉ ownKeys.map Prod.fst := by
      rw [List.lookup_eq_none_iff] at h
      intro hmem
      obtain ⟨p, hp, rfl⟩ := List.mem_map.1 hmem
      simpa using h p hp
    by_cases hp : exId ∈ objectPrototypeKeys <;> simp [hp, hk]
  | some e =>
    have hk : exId ∈ ownKeys.map Prod.fst := by
      by_contra hk
      have hnone : ownKeys.lookup exId = none := by
        rw [List.lookup_eq_none_iff]
        intro p hp
        have : exId ≠ p.1 := fun hpe => hk (List.mem_map.2 ⟨p, hp, hpe.symm⟩)
        simpa using this
      rw [hnone] at h
      exact Option.noConfusion h
    simp [hk]

/-- When the lookup yields `undefined`, `startSession` leaves the play area
empty, registers no timer (no handle is handed out and every live timer was
live before) and leaves the score at 0. -/
theorem startSession_undefined_member (s : State) (h : Exercises s.exerciseValue = none) :
    (startSession s).playArea = [] ∧ (startSession s).nextHandle = s.nextHandle ∧
    (∀ tm ∈ (startSession s).timers, tm ∈ s.timers) ∧ (startSession s).score = 0 := by
  have hs : startSession s = startReset s := by simp [startSession, h]
  rw [hs]
  refine ⟨by simp, by simp [startReset, clearRunning_eq, updateHUD], ?_, rfl⟩
  intro tm htm
  simp only [startReset, clearRunning_eq, updateHUD, List.mem_filter] at htm
  exact htm.1

/-- C7 (failing run): a session is running (exercise timer 1, countdown 2) when
Start is clicked again. After `startSession` returns, the live timers are the
new exercise timer 3, the new countdown 4, and the previous session's
countdown 2, which was not cancelled. -/
theorem restart_keeps_previous_countdown :
    liveHandles (run (demo 10) [Event.startClick]) = [1, 2] ∧
    (run (demo 10) [Event.startClick]).nextHandle = 3 ∧
    liveHandles (startSession (run (demo 10) [Event.startClick])) = [2, 3, 4] ∧
    (startSession (run (demo 10) [Event.startClick])).timer = some 4 := by
  decide

/-! ## Stopping keeps the score -/

/-- C8: `stopSession` and the stop button's listener leave `score` and the
session counter as they were. -/
theorem stopSession_keeps_score (s : State) :
    (stopSession s).score = s.score ∧ (stopSession s).sessions = s.sessions ∧
    (step s Event.stopClick).score = s.score ∧ (step s Event.stopClick).sessions = s.sessions := by
  simp [stopSession, step, stopBtnClick]

/-! ## The completion summary -/

/-- C9 (failing run): two sessions end with score 4, one of duration 10 and
one of duration 30. Their ratings are 3 and 2, and both are shown the same
summary, which carries the score only. -/
theorem summary_ignores_rating :
    rating 4 10 = 3 ∧ rating 4 30 = 2 ∧
    (run (demo 10) (twoClickSession 10)).alerts = ["Session complete! Score: 4"] ∧
    (run (demo 30) (twoClickSession 30)).alerts = ["Session complete! Score: 4"] := by
  decide

/-! ## Rounds of shapeMatch -/

theorem index_lt (r : Draw) (n : Nat) (hn : 0 < n) : r.index n < n := by
  unfold Draw.index
  have hd : 0 < r.den := Nat.lt_of_le_of_lt (Nat.zero_le _) r.lt
  rw [Nat.div_lt_iff_lt_mul hd]
  exact Nat.mul_lt_mul_of_pos_right r.lt hn |>.trans_eq (Nat.mul_comm _ _)

theorem addOption_fields (d : Int) (cur : String) (ci : Nat) (s : State) (i : Nat) :
    (addOption d cur ci s i).nextNode = s.nextNode + 1 ∧
    (addOption d cur ci s i).center = s.center ∧
    (addOption d cur ci s i).playArea = s.playArea ++ [s.nextNode] ∧
    (addOption d cur ci s i).edgeElems = s.edgeElems ++ [s.nextNode] ∧
    (∀ j, j ≠ s.nextNode → (addOption d cur ci s i).node j = s.node j) ∧
    ((addOption d cur ci s i).node s.nextNode).kind = NodeKind.shapeOption ∧
    ((addOption d cur ci s i).node s.nextNode).onClick = Handler.shapeMatch d cur ∧
    (i = ci → ((addOption d cur ci s i).node s.nextNode).textContent = cur) := by
  by_cases hi : i = ci
  · simp [addOption, hi, appendNew, random]
    intro j hj
    exact Function.update_noteq hj _ _
  · simp [addOption, hi, appendNew, random]
    intro j hj
    exact Function.update_noteq hj _ _

theorem building_addOption (d : Int) (cur : String) (ci n0 k : Nat) (s : State)
    (h : Building d cur ci n0 k s) : Building d cur ci n0 (k + 1) (addOption d cur ci s k) := by
  obtain ⟨hn, hc, hpa, he, ht, hj⟩ := h
  obtain ⟨a1, a2, a3, a4, a5, a6, a7, a8⟩ := addOption_fields d cur ci s k
  refine ⟨?_, ?_, ?_, ?_, ?_, ?_⟩
  · rw [a1, hn, Nat.add_assoc]
  · rw [a2]; exact hc
  · rw [a3, a4, a2, hpa, List.cons_append]
  · rw [a4, he, hn, List.range'_1_concat]
  · rw [a2, a5 _ (by omega)]; exact ht
  · intro j hjk
    by_cases hjk2 : j = k
    · subst hjk2
      rw [← hn]
      exact ⟨a6, a7, a8⟩
    · rw [a5 _ (by omega)]
      exact hj j (by omega)

theorem round_of_building (d : Int) (cur : String) (ci n0 : Nat) (s : State) (hci : ci < 4)
    (h : Building d cur ci n0 4 s) : Round s ci := by
  obtain ⟨hn, hc, hpa, he, ht, hj⟩ := h
  refine ⟨by omega, hpa, by rw [he, List.length_range'], by rw [he]; exact List.nodup_range' _ _,
    ?_, ?_⟩
  · intro el hel
    rw [he, List.mem_range'_1] at hel
    obtain ⟨j, rfl⟩ : ∃ j, el = n0 + j := ⟨el - n0, by omega⟩
    obtain ⟨b1, b2, _⟩ := hj j (by omega)
    exact ⟨by omega, by omega, b1, d, by rw [b2, ht]⟩
  · refine ⟨n0 + ci, ?_, ?_⟩
    · rw [he, List.getElem?_range' _ _ hci, Nat.one_mul]
    · rw [(hj ci hci).2.2 rfl, ht]

theorem refreshRound_round (d : Int) (s : State) (hc : s.center < s.nextNode)
    (hpa : s.playArea = s.center :: s.edgeElems) (hce : s.center ∉ s.edgeElems) :
    Round (refreshRound d s) (drawnCorrectIndex s) := by
  have hci : (s.rand (s.randPos + 1)).index 4 < 4 := index_lt _ 4 (by decide)
  have hr : List.range 4 = [0, 1, 2, 3] := by decide
  have hf : (s.center :: s.edgeElems).filter (fun x => !s.edgeElems.contains x) = [s.center] := by
    rw [List.filter_cons]
    have : List.filter (fun x => !s.edgeElems.contains x) s.edgeElems = [] := by
      simp [List.filter_eq_nil_iff]
    simp [hce, this]
  unfold drawnCorrectIndex refreshRound
  simp only [random, removeAll_eq, hr, List.foldl_cons, List.foldl_nil, hpa, hf]
  apply round_of_building d _ _ s.nextNode _ hci
  apply building_addOption
  apply building_addOption
  apply building_addOption
  apply building_addOption
  refine ⟨rfl, hc, ?_, rfl, ?_, ?_⟩
  · rfl
  · simp
  · intro j hj
    omega

theorem round_congr (s t : State) (ci : Nat) (h1 : t.center = s.center)
    (h2 : t.nextNode = s.nextNode) (h3 : t.playArea = s.playArea)
    (h4 : t.edgeElems = s.edgeElems) (h5 : t.node = s.node) (h : Round s ci) : Round t ci := by
  unfold Round at h ⊢
  rw [h1, h2, h3, h4, h5]
  exact h

theorem round_startCountdown (d : Int) (s : State) (ci : Nat) (h : Round s ci) :
    Round (startCountdown d s) ci :=
  round_congr s _ ci rfl rfl rfl rfl rfl h

/-- C10: in `shapeMatch`, whatever the random draws, every round built by
`refreshRound` has exactly four options, each carrying the round's centre
shape as its `current`, and the option at the drawn `correctIndex` shows the
centre's shape: so it is for a round built over the centre and the previous
options, for the first round of a session started with `shapeMatch` selected,
and for the round that a click on an option showing the centre's shape builds
at once (that click also adds 4 to the score). -/
theorem shapeMatch_round_has_correct_option :
    (∀ (d : Int) (s : State), s.center < s.nextNode → s.playArea = s.center :: s.edgeElems →
      s.center ∉ s.edgeElems → Round (refreshRound d s) (drawnCorrectIndex s)) ∧
    (∀ s : State, Exercises s.exerciseValue = some (Member.own Exercise.shapeMatch) →
      Round (startSession s) (drawnCorrectIndex s)) ∧
    (∀ (s : State) (ci el : Nat), Round s ci → el ∈ s.edgeElems →
      (s.node el).textContent = (s.node s.center).textContent →
      (click el s).score = s.score + 4 ∧ Round (click el s) (drawnCorrectIndex s)) := by
  refine ⟨refreshRound_round, ?_, ?_⟩
  · intro s hs
    have h := refreshRound_round s.durationValue
      { (appendNew { kind := NodeKind.shapeTarget } (startReset s)).2 with
        center := (startReset s).nextNode, edgeElems := [] }
      (Nat.lt_succ_self _) (by simp [appendNew]) (by simp)
    have hci : drawnCorrectIndex
        { (appendNew { kind := NodeKind.shapeTarget } (startReset s)).2 with
          center := (startReset s).nextNode, edgeElems := [] } = drawnCorrectIndex s := by
      simp [drawnCorrectIndex, appendNew]
    rw [hci] at h
    rw [startSession_own s _ hs]
    exact round_startCountdown _ _ _ h
  · intro s ci el hround hel htext
    obtain ⟨hc, hpa, _, _, hall, _⟩ := hround
    obtain ⟨hne, _, _, d, hd⟩ := hall el hel
    have hmem : el ∈ s.playArea := by rw [hpa]; exact List.mem_cons_of_mem _ hel
    have hce : s.center ∉ s.edgeElems := fun hin => (hall _ hin).1 rfl
    have hclick : click el s =
        refreshRound d (updateHUD d { s with score := s.score + 4 }) := by
      simp [click, hmem, runHandler, hd, htext]
    rw [hclick]
    exact ⟨by simp, refreshRound_round d _ hc hpa hce⟩

/-- Witness of C10: the first round of a started `shapeMatch` session and the
round built by a click on its guaranteed option (node 1). -/
theorem shapeMatch_round_witness :
    Round (demoShape 10) 0 ∧ (click 1 (demoShape 10)).score = 4 ∧
    Round (click 1 (demoShape 10)) 0 :=
  ⟨shapeMatch_round_has_correct_option.2.1
      (run (demo 10) [Event.selectExercise "shapeMatch"]) (by decide),
   shapeMatch_round_has_correct_option.2.2 (demoShape 10) 0 1
      (shapeMatch_round_has_correct_option.2.1
        (run (demo 10) [Event.selectExercise "shapeMatch"]) (by decide))
      (by decide) (by decide)⟩

/-! ## The time on the HUD -/

theorem foldl_timeLeftText {α : Type} (f : State → α → State)
    (hf : ∀ s a, (f s a).timeLeftText = s.timeLeftText) (l : List α) (s : State) :
    (l.foldl f s).timeLeftText = s.timeLeftText := by
  induction l generalizing s with
  | nil => rfl
  | cons a l ih => simp [ih, hf]

theorem timeLeftText_addOption (d : Int) (cur : String) (ci : Nat) (s : State) (i : Nat) :
    (addOption d cur ci s i).timeLeftText = s.timeLeftText := by
  unfold addOption
  split_ifs <;> rfl

theorem timeLeftText_refreshRound (d : Int) (s : State) :
    (refreshRound d s).timeLeftText = s.timeLeftText := by
  unfold refreshRound
  simp only [random, removeAll_eq]
  rw [foldl_timeLeftText _ (timeLeftText_addOption d _ _)]

/-- Whatever the countdown has reached, a click on the moving dot, on a
`shapeMatch` option, on a `colorCatch` square or on the spiral's focus dot
writes the time `'00:'` followed by the padded `opts.duration` of the listener's
closure into the HUD. -/
theorem click_shows_duration (s : State) (el : Nat) (hel : el ∈ s.playArea) (d : Int)
    (hh : (s.node el).onClick = Handler.movingDot d ∨
      (∃ cur, (s.node el).onClick = Handler.shapeMatch d cur) ∨
      (∃ target, (s.node el).onClick = Handler.colorCatch d target) ∨
      (s.node el).onClick = Handler.spiralFocus d) :
    (click el s).timeLeftText = "00:" ++ padStart2 (toString d) := by
  rcases hh with h | ⟨cur, h⟩ | ⟨target, h⟩ | h
  · simp [click, hel, runHandler, h, updateHUD]
  · by_cases ht : (s.node el).textContent = cur
    · simp [click, hel, runHandler, h, ht, timeLeftText_refreshRound, updateHUD]
    · simp [click, hel, runHandler, h, ht, updateHUD]
  · simp [click, hel, runHandler, h, updateHUD]
  · simp [click, hel, runHandler, h, updateHUD]

/-- C11 (failing run): duration 10; after Start and one tick of the countdown
the time remaining is 9 and the HUD shows `00:09`; a click that updates the HUD
then shows `00:10`, the duration, in each of the four exercises whose click
listener calls `updateHUD`. -/
theorem click_resets_displayed_time :
    (run (demo 10) [Event.startClick, Event.timerFires 2]).timeLeftText = "00:09" ∧
    (run (demo 10) [Event.startClick, Event.timerFires 2, Event.click 0]).timeLeftText
      = "00:10" ∧
    (run (demo 10) [Event.selectExercise "shapeMatch", Event.startClick, Event.timerFires 1,
      Event.click 1]).timeLeftText = "00:10" ∧
    (run (demo 10) [Event.selectExercise "colorCatch", Event.startClick, Event.timerFires 2,
      Event.timerFires 5, Event.click 1]).timeLeftText = "00:10" ∧
    (run (demo 10) [Event.selectExercise "spiralFocus", Event.startClick, Event.timerFires 2,
      Event.click 40]).timeLeftText = "00:10" := by
  decide

/-! ## The bouncing ball -/

/-- One component of `bounceStep`: from the unclamped coordinate `u` and the
velocity `v`, in the range `[0, w]`. -/
theorem bounce_component (w u v : ℚ) (hw : 0 ≤ w) :
    let r := if u < 0 ∨ u > w then (v * -1, max 0 (min w u)) else (v, u)
    0 ≤ r.2 ∧ r.2 ≤ w ∧ ((u < 0 ∨ w < u) → r.1 = -v) ∧ (¬(u < 0 ∨ w < u) → r.1 = v) ∧
      |r.1| = |v| := by
  intro r
  by_cases hout : u < 0 ∨ u > w
  · have hr : r = (v * -1, max 0 (min w u)) := if_pos hout
    rw [hr]
    refine ⟨le_max_left _ _, max_le hw (min_le_left _ _), fun _ => by simp, fun hn => absurd hout hn,
      by simp⟩
  · have hr : r = (v, u) := if_neg hout
    rw [hr]
    have h1 : 0 ≤ u := not_lt.1 (fun h => hout (Or.inl h))
    have h2 : u ≤ w := not_lt.1 (fun h => hout (Or.inr h))
    exact ⟨h1, h2, fun h => absurd h hout, fun _ => rfl, rfl⟩

theorem bounceStep_spec (w h x y vx vy : ℚ) (hw : 0 ≤ w) (hh : 0 ≤ h) :
    0 ≤ (bounceStep w h x y vx vy).1 ∧ (bounceStep w h x y vx vy).1 ≤ w ∧
    0 ≤ (bounceStep w h x y vx vy).2.1 ∧ (bounceStep w h x y vx vy).2.1 ≤ h ∧
    ((x + vx < 0 ∨ w < x + vx) → (bounceStep w h x y vx vy).2.2.1 = -vx) ∧
    (¬(x + vx < 0 ∨ w < x + vx) → (bounceStep w h x y vx vy).2.2.1 = vx) ∧
    ((y + vy < 0 ∨ h < y + vy) → (bounceStep w h x y vx vy).2.2.2 = -vy) ∧
    (¬(y + vy < 0 ∨ h < y + vy) → (bounceStep w h x y vx vy).2.2.2 = vy) ∧
    |(bounceStep w h x y vx vy).2.2.1| = |vx| ∧ |(bounceStep w h x y vx vy).2.2.2| = |vy| := by
  obtain ⟨a1, a2, a3, a4, a5⟩ := bounce_component w (x + vx) vx hw
  obtain ⟨b1, b2, b3, b4, b5⟩ := bounce_component h (y + vy) vy hh
  exact ⟨a1, a2, b1, b2, a3, a4, b3, b4, a5, b5⟩

theorem wf_congr (s t : State) (h1 : t.timers = s.timers) (h2 : t.nextHandle = s.nextHandle)
    (h : TimersWF s) : TimersWF t := by
  unfold TimersWF at h ⊢
  rw [h1, h2]
  exact h

theorem wf_foldl {α : Type} (f : State → α → State)
    (hf : ∀ s a, TimersWF s → TimersWF (f s a)) (l : List α) (s : State) (h : TimersWF s) :
    TimersWF (l.foldl f s) := by
  induction l generalizing s with
  | nil => exact h
  | cons a l ih => exact ih _ (hf s a h)

theorem wf_filter (s t : State) (p : Timer → Bool) (h1 : t.timers = s.timers.filter p)
    (h2 : t.nextHandle = s.nextHandle) (h : TimersWF s) : TimersWF t := by
  obtain ⟨hf, hn, hb⟩ := h
  refine ⟨?_, ?_, ?_⟩
  · intro tm htm
    rw [h1] at htm
    rw [h2]
    exact hf tm (List.mem_of_mem_filter htm)
  · rw [h1]
    exact List.Nodup.sublist ((List.filter_sublist _).map _) hn
  · intro tm htm
    rw [h1] at htm
    exact hb tm (List.mem_of_mem_filter htm)

theorem wf_clearInterval (h : Option Nat) (s : State) (hs : TimersWF s) :
    TimersWF (clearInterval h s) := by
  cases h with
  | none => exact hs
  | some i => exact wf_filter s _ _ rfl rfl hs

theorem wf_clearRunning (s : State) (hs : TimersWF s) : TimersWF (clearRunning s) := by
  rw [clearRunning_eq]
  exact wf_filter s _ _ rfl rfl hs

theorem wf_setTimer (rep : Bool) (cb : Callback) (s : State) (hs : TimersWF s)
    (hcb : ∀ (ball : Nat) (vx vy : ℚ), cb = Callback.bounce ball vx vy →
      rep = true ∧ vx ≠ 0 ∧ vy ≠ 0) :
    TimersWF (setTimer rep cb s).2 := by
  obtain ⟨hf, hn, hb⟩ := hs
  refine ⟨?_, ?_, ?_⟩
  · intro tm htm
    simp only [setTimer, List.mem_append, List.mem_singleton] at htm ⊢
    rcases htm with h | h
    · exact Nat.lt_succ_of_lt (hf tm h)
    · subst h
      exact Nat.lt_succ_self _
  · simp only [setTimer, List.map_append, List.map_cons, List.map_nil]
    rw [List.nodup_append]
    refine ⟨hn, List.nodup_singleton _, ?_⟩
    intro a ha hb2
    rw [List.mem_singleton] at hb2
    obtain ⟨tm, htm, rfl⟩ := List.mem_map.1 ha
    exact absurd hb2 (Nat.ne_of_lt (hf tm htm))
  · intro tm htm ball vx vy hcb2
    simp only [setTimer, List.mem_append, List.mem_singleton] at htm
    rcases htm with h | h
    · exact hb tm h ball vx vy hcb2
    · subst h
      exact hcb ball vx vy hcb2

theorem wf_appendNew (n : Node) (s : State) (hs : TimersWF s) : TimersWF (appendNew n s).2 :=
  wf_congr s _ rfl rfl hs

theorem wf_pushInterval (cb : Callback) (s : State) (hs : TimersWF s)
    (hcb : ∀ (ball : Nat) (vx vy : ℚ), cb = Callback.bounce ball vx vy → vx ≠ 0 ∧ vy ≠ 0) :
    TimersWF (pushInterval cb s) :=
  wf_congr (setTimer true cb s).2 _ rfl rfl
    (wf_setTimer true cb s hs (fun ball vx vy h => ⟨rfl, hcb ball vx vy h⟩))

theorem wf_pushTimeout (cb : Callback) (s : State) (hs : TimersWF s)
    (hcb : ∀ (ball : Nat) (vx vy : ℚ), cb ≠ Callback.bounce ball vx vy) :
    TimersWF (pushTimeout cb s) :=
  wf_congr (setTimer false cb s).2 _ rfl rfl
    (wf_setTimer false cb s hs (fun ball vx vy h => absurd h (hcb ball vx vy)))

theorem wf_initialBursts (cb : Callback) (s : State) (hs : TimersWF s)
    (hcb : ∀ (ball : Nat) (vx vy : ℚ), cb ≠ Callback.bounce ball vx vy) :
    TimersWF (initialBursts cb s) :=
  wf_foldl (fun acc _ => pushTimeout cb acc) (fun s _ h => wf_pushTimeout cb s h hcb) _ _ hs

theorem wf_flashSpawn (s : State) (hs : TimersWF s) : TimersWF (flashSpawn s) := by
  unfold flashSpawn
  exact wf_pushTimeout _ _ (wf_congr s _ rfl rfl hs) (fun _ _ _ h => Callback.noConfusion h)

theorem wf_colorSpawn (d : Int) (t : String) (s : State) (hs : TimersWF s) :
    TimersWF (colorSpawn d t s) := by
  unfold colorSpawn
  exact wf_pushTimeout _ _ (wf_congr s _ rfl rfl hs) (fun _ _ _ h => Callback.noConfusion h)

theorem wf_addOption (d : Int) (cur : String) (ci : Nat) (s : State) (i : Nat)
    (hs : TimersWF s) : TimersWF (addOption d cur ci s i) := by
  unfold addOption
  by_cases hi : i = ci
  · simp only [hi, if_true]
    exact wf_congr s _ rfl rfl hs
  · simp only [hi, if_false]
    exact wf_congr s _ rfl rfl hs

theorem wf_refreshRound (d : Int) (s : State) (hs : TimersWF s) :
    TimersWF (refreshRound d s) := by
  unfold refreshRound
  simp only [random, removeAll_eq]
  exact wf_foldl _ (fun s i h => wf_addOption d _ _ s i h) _ _ (wf_congr s _ rfl rfl hs)

theorem speedMul_ne_zero (s : State) : speedMul s ≠ 0 := by
  unfold speedMul
  split_ifs with h
  · exact one_ne_zero
  · exact h

theorem wf_runExercise (e : Exercise) (d : Int) (s : State) (hs : TimersWF s) :
    TimersWF (runExercise e d s) := by
  cases e with
  | movingDot =>
    exact wf_pushInterval _ _ (wf_congr s _ rfl rfl hs) (fun _ _ _ h => Callback.noConfusion h)
  | bouncingBall =>
    refine wf_pushInterval _ _ (wf_congr s _ rfl rfl hs) ?_
    intro ball vx vy h
    simp only [Callback.bounce.injEq] at h
    obtain ⟨_, h1, h2⟩ := h
    rw [← h1, ← h2]
    exact ⟨mul_ne_zero (by norm_num) (speedMul_ne_zero _),
      mul_ne_zero (by norm_num) (speedMul_ne_zero _)⟩
  | peripheralFlash =>
    exact wf_initialBursts _ _
      (wf_pushInterval _ _ hs (fun _ _ _ h => Callback.noConfusion h))
      (fun _ _ _ h => Callback.noConfusion h)
  | letterZoom =>
    exact wf_pushInterval _ _ (wf_congr s _ rfl rfl hs) (fun _ _ _ h => Callback.noConfusion h)
  | followStar =>
    exact wf_pushInterval _ _ (wf_congr s _ rfl rfl hs) (fun _ _ _ h => Callback.noConfusion h)
  | shapeMatch => exact wf_refreshRound _ _ (wf_congr s _ rfl rfl hs)
  | colorCatch =>
    exact wf_initialBursts _ _
      (wf_pushInterval _ _ (wf_congr s _ rfl rfl hs) (fun _ _ _ h => Callback.noConfusion h))
      (fun _ _ _ h => Callback.noConfusion h)
  | spiralFocus =>
    simp only [runExercise, spiralFocus]
    refine wf_appendNew _ _ (wf_pushInterval _ _ ?_ (fun _ _ _ h => Callback.noConfusion h))
    exact wf_foldl _ (fun s i h => wf_appendNew _ s h) _ _ hs

theorem wf_startSession (s : State) (hs : TimersWF s) : TimersWF (startSession s) := by
  have h0 : TimersWF (startReset s) :=
    wf_congr (clearRunning s) _ rfl rfl (wf_clearRunning s hs)
  have hcd : ∀ (d : Int) (s1 : State), TimersWF s1 → TimersWF (startCountdown d s1) := by
    intro d s1 h1
    exact wf_congr (setTimer true (Callback.countdown d) (updateHUD d s1)).2 _ rfl rfl
      (wf_setTimer true _ _ (wf_congr s1 _ rfl rfl h1) (fun _ _ _ h => Callback.noConfusion h))
  unfold startSession
  dsimp only
  split
  · exact h0
  · rename_i m _
    split
    · exact h0
    · rename_i s1 hcall
      apply hcd
      cases m with
      | own e =>
        simp only [callMember, Option.some.injEq] at hcall
        rw [← hcall]
        exact wf_runExercise e _ _ h0
      | inherited name =>
        simp only [callMember] at hcall
        split_ifs at hcall
        simp only [Option.some.injEq] at hcall
        rw [← hcall]
        exact h0

theorem wf_setClosure (h : Nat) (cb : Callback) (s : State) (hs : TimersWF s)
    (hcb : ∀ (ball : Nat) (vx vy : ℚ), cb = Callback.bounce ball vx vy →
      vx ≠ 0 ∧ vy ≠ 0 ∧ ∀ tm ∈ s.timers, tm.handle = h → tm.repeating = true) :
    TimersWF (setClosure h cb s) := by
  obtain ⟨hf, hn, hb⟩ := hs
  have hmap : (setClosure h cb s).timers.map (fun tm => tm.handle) =
      s.timers.map (fun tm => tm.handle) := by
    simp only [setClosure, List.map_map]
    apply List.map_congr_left
    intro tm _
    simp only [Function.comp]
    split_ifs <;> rfl
  refine ⟨?_, ?_, ?_⟩
  · intro tm htm
    have : tm.handle ∈ (setClosure h cb s).timers.map (fun tm => tm.handle) :=
      List.mem_map.2 ⟨tm, htm, rfl⟩
    rw [hmap] at this
    obtain ⟨tm0, h0, he⟩ := List.mem_map.1 this
    rw [← he]
    exact hf tm0 h0
  · rw [hmap]
    exact hn
  · intro tm htm ball vx vy hcb2
    simp only [setClosure, List.mem_map] at htm
    obtain ⟨tm0, h0, rfl⟩ := htm
    by_cases hh : tm0.handle = h
    · simp only [hh, if_true] at hcb2 ⊢
      obtain ⟨a, b, c⟩ := hcb ball vx vy hcb2
      exact ⟨c tm0 h0 hh, a, b⟩
    · simp only [hh, if_false] at hcb2 ⊢
      exact hb tm0 h0 ball vx vy hcb2

theorem bounceStep_velocity (w h x y vx vy : ℚ) :
    ((bounceStep w h x y vx vy).2.2.1 = vx ∨ (bounceStep w h x y vx vy).2.2.1 = -vx) ∧
    ((bounceStep w h x y vx vy).2.2.2 = vy ∨ (bounceStep w h x y vx vy).2.2.2 = -vy) := by
  unfold bounceStep
  dsimp only
  constructor
  · split_ifs <;> simp
  · split_ifs <;> simp

theorem wf_timerFires (h : Nat) (s : State) (hs : TimersWF s) : TimersWF (timerFires h s) := by
  unfold timerFires
  cases hfind : s.timers.find? (fun tm => tm.handle == h) with
  | none => exact hs
  | some tm =>
    have hmem : tm ∈ s.timers := List.mem_of_find?_eq_some hfind
    have hhandle : tm.handle = h := by
      have := List.find?_some hfind
      simpa using this
    have hs1 : TimersWF (if tm.repeating = true then s else clearInterval (some h) s) := by
      split_ifs
      · exact hs
      · exact wf_clearInterval _ _ hs
    dsimp only
    cases hcb : tm.cb with
    | countdown t =>
      generalize (if tm.repeating = true then s else clearInterval (some h) s) = s1 at hs1
      simp only [runCallback]
      have h2 : TimersWF (updateHUD (t - 1) (setClosure h (Callback.countdown (t - 1)) s1)) :=
        wf_congr _ _ rfl rfl
          (wf_setClosure h _ s1 hs1 (fun _ _ _ hc => Callback.noConfusion hc))
      split_ifs
      · exact wf_congr _ _ rfl rfl (wf_clearRunning _ (wf_clearInterval _ _ h2))
      · exact h2
    | motion => exact hs1
    | bounce ball vx vy =>
      obtain ⟨hrep, hvx, hvy⟩ := hs.2.2 tm hmem ball vx vy hcb
      simp only [hrep, if_true, runCallback]
      refine wf_congr (setClosure h (Callback.bounce ball
        (bounceStep (s.clientWidth - 56) (s.clientHeight - 56) ((s.node ball).left.getD 10)
          ((s.node ball).top.getD 10) vx vy).2.2.1
        (bounceStep (s.clientWidth - 56) (s.clientHeight - 56) ((s.node ball).left.getD 10)
          ((s.node ball).top.getD 10) vx vy).2.2.2) s) _ rfl rfl (wf_setClosure h _ s hs ?_)
      intro ball2 vx2 vy2 heq
      simp only [Callback.bounce.injEq] at heq
      obtain ⟨_, h1, h2⟩ := heq
      obtain ⟨v1, v2⟩ := bounceStep_velocity (s.clientWidth - 56) (s.clientHeight - 56)
        ((s.node ball).left.getD 10) ((s.node ball).top.getD 10) vx vy
      refine ⟨?_, ?_, ?_⟩
      · rw [← h1]
        rcases v1 with v | v <;> rw [v]
        · exact hvx
        · exact neg_ne_zero.2 hvx
      · rw [← h2]
        rcases v2 with v | v <;> rw [v]
        · exact hvy
        · exact neg_ne_zero.2 hvy
      · intro tm1 htm1 hh1
        have : tm1 = tm :=
          List.inj_on_of_nodup_map hs.2.1 htm1 hmem (hh1.trans hhandle.symm)
        rw [this]
        exact hrep
    | letterCycle el idx =>
      generalize (if tm.repeating = true then s else clearInterval (some h) s) = s1 at hs1
      simp only [runCallback]
      exact wf_congr _ _ rfl rfl
        (wf_setClosure h _ s1 hs1 (fun _ _ _ hc => Callback.noConfusion hc))
    | flashSpawn => exact wf_flashSpawn _ hs1
    | colorSpawn d t => exact wf_colorSpawn d t _ hs1
    | removeNode el =>
      generalize (if tm.repeating = true then s else clearInterval (some h) s) = s1 at hs1
      exact wf_congr s1 _ rfl rfl hs1

theorem wf_click (el : Nat) (s : State) (hs : TimersWF s) : TimersWF (click el s) := by
  unfold click
  split_ifs
  · unfold runHandler
    cases (s.node el).onClick with
    | none => exact hs
    | movingDot d => exact wf_congr s _ rfl rfl hs
    | bouncingBall => exact wf_congr s _ rfl rfl hs
    | peripheralFlash => exact wf_congr s _ rfl rfl hs
    | letterZoom => exact wf_congr s _ rfl rfl hs
    | followStar => exact wf_congr s _ rfl rfl hs
    | shapeMatch d cur =>
      dsimp only
      split_ifs
      · exact wf_refreshRound _ _ (wf_congr s _ rfl rfl hs)
      · exact wf_congr s _ rfl rfl hs
    | colorCatch d t =>
      dsimp only
      split_ifs
      · exact wf_congr s _ rfl rfl hs
      · exact wf_congr s _ rfl rfl hs
    | spiralFocus d => exact wf_congr s _ rfl rfl hs
  · exact hs

theorem wf_step (s : State) (e : Event) (hs : TimersWF s) : TimersWF (step s e) := by
  cases e with
  | startClick => exact wf_startSession s hs
  | stopClick => exact wf_clearRunning _ (wf_clearInterval _ _ hs)
  | resetClick =>
    exact wf_congr _ _ rfl rfl (wf_clearRunning _ (wf_clearInterval _ _ hs))
  | hidden => exact wf_clearInterval _ _ hs
  | setDuration d => exact hs
  | setSpeed v label => exact hs
  | selectExercise exId => exact hs
  | timerFires h => exact wf_timerFires h s hs
  | click el => exact wf_click el s hs

theorem wf_run (es : List Event) (s : State) (hs : TimersWF s) : TimersWF (run s es) := by
  induction es generalizing s with
  | nil => exact hs
  | cons e es ih => exact ih _ (wf_step s e hs)

theorem wf_reachable (s : State) (hs : Reachable s) : TimersWF s := by
  obtain ⟨duration, speed, width, height, rand, es, rfl⟩ := hs
  apply wf_run
  refine ⟨?_, ?_, ?_⟩
  · intro tm h
    simp [init] at h
  · simp [init]
  · intro tm h
    simp [init] at h

theorem find?_setClosure (h : Nat) (cb : Callback) (s : State) (tm : Timer)
    (hfind : s.timers.find? (fun x => x.handle == h) = some tm) :
    (setClosure h cb s).timers.find? (fun x => x.handle == h) = some { tm with cb := cb } := by
  have hhandle : tm.handle = h := by
    have := List.find?_some hfind
    simpa using this
  have hcomp : ((fun x : Timer => x.handle == h) ∘
      fun tm0 : Timer => if tm0.handle = h then { tm0 with cb := cb } else tm0) =
      fun x : Timer => x.handle == h := by
    funext tm0
    simp only [Function.comp]
    split_ifs <;> rfl
  simp only [setClosure, List.find?_map]
  rw [hcomp, hfind]
  simp [hhandle]

/-- C12: in `bouncingBall`, arithmetic over the rationals, with
`w = clientWidth - 56 ≥ 0` and `h = clientHeight - 56 ≥ 0`: whenever a motion
tick of the ball runs in a state the page can reach, the ball's position
afterwards satisfies `0 ≤ x ≤ w` and `0 ≤ y ≤ h`; the velocity the callback keeps
for its next tick has a component negated exactly when the unclamped new
coordinate (old coordinate plus velocity) left the range, and unchanged
otherwise; negating changes the component, which is never zero, and never its
magnitude. -/
theorem bouncingBall_tick_in_range (s : State) (h : Nat) (tm : Timer) (ball : Nat) (vx vy : ℚ)
    (hreach : Reachable s)
    (hfind : s.timers.find? (fun x => x.handle == h) = some tm)
    (hcb : tm.cb = Callback.bounce ball vx vy)
    (hw : 0 ≤ s.clientWidth - 56) (hh : 0 ≤ s.clientHeight - 56) :
    ∃ x y vx1 vy1 : ℚ,
      ((timerFires h s).node ball).left = some x ∧
      ((timerFires h s).node ball).top = some y ∧
      (timerFires h s).timers.find? (fun x => x.handle == h) =
        some { tm with cb := Callback.bounce ball vx1 vy1 } ∧
      0 ≤ x ∧ x ≤ s.clientWidth - 56 ∧ 0 ≤ y ∧ y ≤ s.clientHeight - 56 ∧
      (((s.node ball).left.getD 10 + vx < 0 ∨ s.clientWidth - 56 < (s.node ball).left.getD 10 + vx)
        → vx1 = -vx ∧ vx1 ≠ vx) ∧
      (¬((s.node ball).left.getD 10 + vx < 0 ∨
          s.clientWidth - 56 < (s.node ball).left.getD 10 + vx) → vx1 = vx) ∧
      (((s.node ball).top.getD 10 + vy < 0 ∨ s.clientHeight - 56 < (s.node ball).top.getD 10 + vy)
        → vy1 = -vy ∧ vy1 ≠ vy) ∧
      (¬((s.node ball).top.getD 10 + vy < 0 ∨
          s.clientHeight - 56 < (s.node ball).top.getD 10 + vy) → vy1 = vy) ∧
      |vx1| = |vx| ∧ |vy1| = |vy| := by
  have hwf := wf_reachable s hreach
  have hmem : tm ∈ s.timers := List.mem_of_find?_eq_some hfind
  have hhandle : tm.handle = h := by
    have := List.find?_some hfind
    simpa using this
  obtain ⟨hrep, hvx, hvy⟩ := hwf.2.2 tm hmem ball vx vy hcb
  obtain ⟨a1, a2, a3, a4, a5, a6, a7, a8, a9, a10⟩ :=
    bounceStep_spec (s.clientWidth - 56) (s.clientHeight - 56) ((s.node ball).left.getD 10)
      ((s.node ball).top.getD 10) vx vy hw hh
  have hneg : ∀ v : ℚ, v ≠ 0 → -v ≠ v := by
    intro v hv hc
    apply hv
    linarith
  refine ⟨_, _, _, _, ?_, ?_, ?_, a1, a2, a3, a4, ?_, a6, ?_, a8, a9, a10⟩
  · simp [timerFires, hfind, hrep, hcb, runCallback]
  · simp [timerFires, hfind, hrep, hcb, runCallback]
  · simp only [timerFires, hfind, hrep, if_true, hcb, runCallback]
    rw [find?_setClosure h _ s tm hfind, hrep]
  · intro hout
    exact ⟨a5 hout, by rw [a5 hout]; exact hneg vx hvx⟩
  · intro hout
    exact ⟨a7 hout, by rw [a7 hout]; exact hneg vy hvy⟩

/-- Witness of C12: the first motion tick (timer 1) of a `bouncingBall` session
started on the 800 by 600 page, where `w = 744` and `h = 544`. -/
theorem bouncingBall_tick_witness :
    ∃ x y : ℚ, ((timerFires 1 demoBall).node 0).left = some x ∧
      ((timerFires 1 demoBall).node 0).top = some y ∧
      0 ≤ x ∧ x ≤ 800 - 56 ∧ 0 ≤ y ∧ y ≤ 600 - 56 := by
  obtain ⟨x, y, _, _, h1, h2, _, h3, h4, h5, h6, _⟩ :=
    bouncingBall_tick_in_range demoBall 1 _ 0 _ _
      ⟨10, 1, 800, 600, demoRand, [Event.selectExercise "bouncingBall", Event.startClick], rfl⟩
      rfl rfl (by show (0 : ℚ) ≤ 800 - 56; norm_num) (by show (0 : ℚ) ≤ 600 - 56; norm_num)
  exact ⟨x, y, h1, h2, h3, h4, h5, h6⟩

end VisionTherapy
